import Mathlib

/-!
Verification of the resilient stream-ingestion core of the pi-face
repository, shallowly embedded from `app/hik_mjpeg_server.py`,
`app/face_runtime.py` and `app/config.py`.

Modelling conventions, stated once:
* `cv2.VideoCapture.read()` outcomes are events; wall-clock timeouts are
  modelled by the finite list of reads that happen before the deadline
  (every loop iteration consumes positive time, so only finitely many
  reads fit inside the timeout window).
* Frame payloads and JPEG byte strings are `List Nat` (byte lists);
  content fingerprints (`hashlib.md5(frame.tobytes()).hexdigest()`) are
  abstracted to `Nat` values with equality as the only operation used.
* A `cv2.VideoCapture` handle is modelled by the Boolean "the session
  currently owns an open handle" (`cap is not None` in the Python code).
-/

namespace PiFace

/-- Outcome of one `cap.read()` call during probing, as tested by
`_try_open_stream` (hik_mjpeg_server.py line 92) and `try_open_stream`
(face_runtime.py line 113): `ok` records whether `ok and frame is not
None` held, and its Boolean field records whether `frame.size > 0`. -/
inductive ProbeRead where
  | ok (nonempty : Bool)
  | failed
deriving DecidableEq

/-- A probe read counts as a success exactly when
`ok and frame is not None and frame.size > 0` (both probe functions,
identical test). -/
def ProbeRead.good : ProbeRead → Bool
  | .ok true => true
  | _ => false

/-- The `while time.time() - start < OPEN_TIMEOUT` read loop of
`_try_open_stream` / `try_open_stream`: the list holds exactly the reads
that happen before the deadline; a successful read increments `ok_count`
and returns the still-open handle (`true`) once `ok_count >= testFrames`;
a failed read only sleeps 0.05 s and leaves `ok_count` unchanged; when
the reads are exhausted (deadline reached) the handle is released and the
probe fails. -/
def probeLoop (testFrames : Nat) : Nat → List ProbeRead → Bool
  | _, [] => false
  | okCount, r :: rs =>
    if r.good then
      if testFrames ≤ okCount + 1 then true
      else probeLoop testFrames (okCount + 1) rs
    else
      probeLoop testFrames okCount rs

/-- `_try_open_stream` (hik_mjpeg_server.py lines 81-100) and
`try_open_stream` (face_runtime.py lines 103-121): if `cap.isOpened()`
is false the handle is released and the probe fails immediately;
otherwise the read loop runs with `ok_count = 0`. The result `true`
stands for returning the still-open handle. -/
def try_open_stream (openedOk : Bool) (testFrames : Nat)
    (reads : List ProbeRead) : Bool :=
  if openedOk then probeLoop testFrames 0 reads else false

/-- Number of good reads in a read sequence. -/
def countGood (reads : List ProbeRead) : Nat :=
  reads.countP (fun r => r.good)

/-- Length of the longest run of consecutive good reads, tracked as
(current run, best run so far). -/
def maxGoodRunAux : Nat → Nat → List ProbeRead → Nat
  | cur, best, [] => max cur best
  | cur, best, r :: rs =>
    if r.good then maxGoodRunAux (cur + 1) best rs
    else maxGoodRunAux 0 (max cur best) rs

/-- Length of the longest run of consecutive good reads. -/
def maxGoodRun (reads : List ProbeRead) : Nat :=
  maxGoodRunAux 0 0 reads

/-- A probe read trace with eight successful reads, none of them
consecutive: good and failed reads alternate. `TEST_FRAMES = 8` is the
configured probe requirement (hik_mjpeg_server.py line 19,
config.py line 64). -/
def alternatingReads : List ProbeRead :=
  [.ok true, .failed, .ok true, .failed, .ok true, .failed, .ok true,
   .failed, .ok true, .failed, .ok true, .failed, .ok true, .failed,
   .ok true]

/-- State of the `face_runtime.py` capture loop (`main`, lines 180-240):
`connected` is `cap is not None`; the other fields are the loop
variables `consecutive_fails`, `last_hash` and `freeze_count`. The hash
is abstracted to a `Nat` (only equality of md5 hex digests is used). -/
structure FRState where
  connected : Bool
  consecutive_fails : Nat
  last_hash : Option Nat
  freeze_count : Nat
deriving DecidableEq

/-- Outcome of one `cap.read()` in the connected part of the
`face_runtime.py` loop (line 205): `readFail` is `not ok or frame is
None`; `readOk h` is a successful read whose frame has content
fingerprint `h = frame_hash(frame)`. -/
inductive FREvent where
  | readFail
  | readOk (h : Nat)
deriving DecidableEq

/-- One connected-loop iteration of `face_runtime.main` (lines 205-240),
paired with whether the frame reaches the recognition stage (the code
after the freeze check, line 243 onward) — the publication/processing
analogue. Failed read: increment `consecutive_fails`; at
`RTSP_MAX_CONSECUTIVE_FAILS` release the handle and zero the counter
(`last_hash` and `freeze_count` are NOT touched on this path). Successful
read: zero `consecutive_fails`, compare the fingerprint with `last_hash`;
on a match increment `freeze_count` and, at `RTSP_FREEZE_MAX_FRAMES`,
release the handle, zero `freeze_count`, clear `last_hash` and skip the
frame; below the threshold the frame still falls through to recognition.
On a mismatch zero `freeze_count`, store the new fingerprint and process
the frame. -/
def frStepP (freezeMax maxFails : Nat) (s : FRState) (e : FREvent) :
    FRState × Bool :=
  match e with
  | .readFail =>
    let cf := s.consecutive_fails + 1
    if maxFails ≤ cf then
      ({ s with connected := false, consecutive_fails := 0 }, false)
    else
      ({ s with consecutive_fails := cf }, false)
  | .readOk h =>
    let s1 := { s with consecutive_fails := 0 }
    if s1.last_hash = some h then
      let fz := s1.freeze_count + 1
      if freezeMax ≤ fz then
        ({ s1 with connected := false, freeze_count := 0,
                   last_hash := none }, false)
      else
        ({ s1 with freeze_count := fz }, true)
    else
      ({ s1 with freeze_count := 0, last_hash := some h }, true)

/-- The state part of `frStepP`. -/
def frStep (freezeMax maxFails : Nat) (s : FRState) (e : FREvent) :
    FRState :=
  (frStepP freezeMax maxFails s e).1

/-- Run of the `face_runtime` connected read loop over a finite event
trace; reads happen only while a handle is held (once `cap` is `None`
the loop goes back to candidate selection instead of reading). -/
def frRun (freezeMax maxFails : Nat) (s : FRState) :
    List FREvent → FRState
  | [] => s
  | e :: es =>
    if s.connected then frRun freezeMax maxFails (frStep freezeMax maxFails s e) es
    else s

/-- State of the `hik_mjpeg_server.py` capture loop (`capture_loop`,
lines 103-169) together with the shared frame slot: `connected` is
`working_cap is not None`; `consecutive_fails` is the loop counter;
`latest` is the global `latest_jpeg` (`none` until the first
publication). -/
structure HikState where
  connected : Bool
  consecutive_fails : Nat
  latest : Option (List Nat)
deriving DecidableEq

/-- Outcome of one `working_cap.read()` plus the subsequent JPEG encode
in `capture_loop`: `readFail` is `not ok or frame is None`; `readOk enc`
is a successful read, with `enc = none` when `cv2.imencode` fails
(`ok2` false) and `enc = some b` when it yields the byte string `b`. -/
inductive HikEvent where
  | readFail
  | readOk (enc : Option (List Nat))
deriving DecidableEq

/-- One connected-loop iteration of `capture_loop` (lines 138-169).
Failed read: increment `consecutive_fails`; at `MAX_CONSECUTIVE_FAILS`
release the handle (inside try/except) and zero the counter; either way
sleep `READ_FAIL_SLEEP_SEC` and continue. Successful read: zero
`consecutive_fails`; if the JPEG encode fails, drop the frame and
continue; otherwise store the bytes in `latest_jpeg` under `frame_lock`. -/
def hikStep (maxFails : Nat) (s : HikState) (e : HikEvent) : HikState :=
  match e with
  | .readFail =>
    let cf := s.consecutive_fails + 1
    if maxFails ≤ cf then
      { s with connected := false, consecutive_fails := 0 }
    else
      { s with consecutive_fails := cf }
  | .readOk enc =>
    let s1 := { s with consecutive_fails := 0 }
    match enc with
    | none => s1
    | some b => { s1 with latest := some b }

/-- Run of the connected read loop of `capture_loop` over an event
trace; reads happen only while a handle is held. -/
def hikRun (maxFails : Nat) (s : HikState) : List HikEvent → HikState
  | [] => s
  | e :: es =>
    if s.connected then hikRun maxFails (hikStep maxFails s e) es else s

/-- The candidate sweep of `capture_loop` (lines 119-130) and
`face_runtime.main` (lines 192-198): iterate the URL list in order,
probe each, stop at the first success. Returns the winning candidate
(if any) and how many candidates were probed. -/
def selectCandidate (probe : α → Bool) : List α → Option α × Nat
  | [] => (none, 0)
  | u :: us =>
    if probe u then (some u, 1)
    else
      let r := selectCandidate probe us
      (r.1, r.2 + 1)

/-- `_rtsp_urls` (hik_mjpeg_server.py lines 73-78) / `rtsp_urls`
(face_runtime.py lines 95-100): the candidate list is always the main
channel URL followed by the sub channel URL. -/
def rtsp_urls (user pwd ip port mainCh subCh : String) : List String :=
  let base := "rtsp://" ++ user ++ ":" ++ pwd ++ "@" ++ ip ++ ":" ++ port
  [base ++ "/" ++ mainCh ++ "?transportmode=unicast",
   base ++ "/" ++ subCh ++ "?transportmode=unicast"]

/-- The disconnected branch of `capture_loop` (lines 115-135): clear the
working URL, zero `consecutive_fails`, run the sweep; on success the
session becomes connected, otherwise it sleeps
`RETRY_ALL_URL_SLEEP_SEC` and stays disconnected for the next round.
`latest_jpeg` is not touched on this path. -/
def hikSweepIter (sweepWon : Bool) (s : HikState) : HikState :=
  if sweepWon then { s with connected := true, consecutive_fails := 0 }
  else { s with consecutive_fails := 0 }

/-- One full iteration of the `while not stop_flag` loop of
`capture_loop`: a disconnected session runs the candidate sweep (fed
with the probe outcome of that round), a connected one performs a read. -/
def hikLoopIter (maxFails : Nat) (s : HikState) (inp : Bool × HikEvent) :
    HikState :=
  if s.connected then hikStep maxFails s inp.2 else hikSweepIter inp.1 s

/-- Run of the full capture loop over a list of per-iteration inputs. -/
def hikLoopRun (maxFails : Nat) (s : HikState)
    (l : List (Bool × HikEvent)) : HikState :=
  l.foldl (hikLoopIter maxFails) s

/-- Outcome of a `cap.release()` call: it either returns normally or
raises an exception. -/
inductive CloseResult where
  | ok
  | err
deriving DecidableEq

/-- The threshold-breach transition of `capture_loop` (lines 150-156):
`working_cap.release()` runs inside try/except — a raising close is
logged by `logger.exception` and swallowed — and the session then
unconditionally drops the handle and zeroes the counter. The Boolean
records that exactly one release call was made on this transition. -/
def hikForceDisconnect (r : CloseResult) (s : HikState) :
    HikState × Bool :=
  match r with
  | .ok => ({ s with connected := false, consecutive_fails := 0 }, true)
  | .err => ({ s with connected := false, consecutive_fails := 0 }, true)

/-- The threshold-breach transition of `face_runtime.main` (lines
213-215): `cap.release()` is NOT guarded there; if it raises, the
exception escapes the `while` loop into the outer handler (lines
277-284), which logs it as fatal and stops the process — the session
never transitions to DISCONNECTED. `none` models that abort. -/
def frFailureDisconnect (r : CloseResult) (s : FRState) :
    Option FRState :=
  match r with
  | .ok => some { s with connected := false, consecutive_fails := 0 }
  | .err => none

/-- Body of an HTTP response: plain text or raw bytes. -/
inductive RespBody where
  | text (s : String)
  | bytes (b : List Nat)
deriving DecidableEq

/-- An HTTP response: status code, content type, body. -/
structure Resp where
  status : Nat
  mime : String
  body : RespBody
deriving DecidableEq

/-- `health` (hik_mjpeg_server.py lines 172-176): reads `latest_jpeg`
under the lock and reports whether a frame exists
(`latest_jpeg is not None`). -/
def health (latest : Option (List Nat)) : Bool :=
  latest.isSome

/-- `snapshot` (hik_mjpeg_server.py lines 179-185): reads `latest_jpeg`
under the lock; `if not data` — `None` or the empty byte string — yields
503 text/plain "no frame", otherwise 200 image/jpeg with the stored
bytes. -/
def snapshot (latest : Option (List Nat)) : Resp :=
  match latest with
  | none => ⟨503, "text/plain", .text "no frame"⟩
  | some d =>
    if d = [] then ⟨503, "text/plain", .text "no frame"⟩
    else ⟨200, "image/jpeg", .bytes d⟩

/-- What one iteration of the `gen()` generator inside `video_feed`
produces: the sequence ends (`stop_flag`), it emits nothing and polls
again, or it emits one complete multipart part. -/
inductive FeedOut where
  | stopped
  | waiting
  | part (contentLength : Nat) (payload : List Nat)
deriving DecidableEq

/-- One iteration of the `gen()` generator inside `video_feed`
(hik_mjpeg_server.py lines 190-203): when `stop_flag` is set the
sequence ends; when the buffer is empty (`if not data`) it sleeps
0.05 s and emits nothing; otherwise it emits one multipart part —
boundary, content-type and content-length headers, then the frame
bytes — and sleeps the pacing delay. -/
def videoFeedIter (stopFlag : Bool) (latest : Option (List Nat)) :
    FeedOut :=
  if stopFlag then .stopped
  else
    match latest with
    | none => .waiting
    | some d => if d = [] then .waiting else .part d.length d

/-- One atomic access to the shared frame slot. `capture_loop` holds
`frame_lock` for the whole assignment `latest_jpeg = buf.tobytes()`
(lines 168-169), and every reader holds it for the whole
`data = latest_jpeg` (lines 174-175, 181-182, 193-194), so each access
is one atomic event; an interleaving of the producer and arbitrarily
many readers is a list of such events. `readEvt c` tags a read by
consumer `c`. -/
inductive BufEvent where
  | publish (b : List Nat)
  | readEvt (consumer : Nat)
deriving DecidableEq

/-- Value of the `latest_jpeg` slot after a sequence of accesses. -/
def bufSlot : Option (List Nat) → List BufEvent → Option (List Nat)
  | s, [] => s
  | _, (.publish b) :: es => bufSlot (some b) es
  | s, (.readEvt _) :: es => bufSlot s es

/-- Whether an access sequence contains a publication. -/
def hasPublish (l : List BufEvent) : Bool :=
  l.any fun e =>
    match e with
    | .publish _ => true
    | .readEvt _ => false

/- ------------------------------------------------------------------ -/
/- Helper lemmas.                                                      -/
/- ------------------------------------------------------------------ -/

theorem probeLoop_true_iff (testFrames : Nat) :
    ∀ (reads : List ProbeRead) (okCount : Nat), okCount < testFrames →
      (probeLoop testFrames okCount reads = true ↔
        testFrames ≤ okCount + countGood reads) := by
  intro reads
  induction reads with
  | nil =>
    intro okCount hlt
    simp [probeLoop, countGood]
    omega
  | cons r rs ih =>
    intro okCount hlt
    by_cases hg : r.good = true
    · by_cases hreach : testFrames ≤ okCount + 1
      · simp [probeLoop, hg, hreach, countGood, List.countP_cons]
        omega
      · have hlt1 : okCount + 1 < testFrames := by omega
        simp only [probeLoop, hg, if_true, if_neg hreach]
        rw [ih (okCount + 1) hlt1]
        simp [countGood, List.countP_cons, hg]
        omega
    · simp only [probeLoop, hg]
      simp only [Bool.false_eq_true, if_false]
      rw [ih okCount hlt]
      simp [countGood, List.countP_cons, hg]

theorem frRun_of_not_connected (freezeMax maxFails : Nat) (s : FRState)
    (es : List FREvent) (h : s.connected = false) :
    frRun freezeMax maxFails s es = s := by
  cases es with
  | nil => rfl
  | cons e es => simp [frRun, h]

/-- Identical successful reads from a state already holding the run
fingerprint: with `freeze_count` still below the threshold, `k` further
identical reads disconnect the session exactly when the counter reaches
the threshold. -/
theorem frRun_identical_aux (freezeMax maxFails : Nat) (h : Nat) :
    ∀ (k : Nat) (s : FRState), s.connected = true →
      s.last_hash = some h → s.freeze_count < freezeMax →
      ((frRun freezeMax maxFails s (List.replicate k (.readOk h))).connected
          = false ↔ freezeMax ≤ s.freeze_count + k) := by
  intro k
  induction k with
  | zero =>
    intro s hc hl hf
    simp [frRun, hc]
    omega
  | succ k ih =>
    intro s hc hl hf
    rw [List.replicate_succ]
    simp only [frRun, hc, if_true]
    by_cases hthr : freezeMax ≤ s.freeze_count + 1
    · have hstep : frStep freezeMax maxFails s (.readOk h) =
          { s with connected := false, consecutive_fails := 0,
                   freeze_count := 0, last_hash := none } := by
        simp [frStep, frStepP, hl, hthr]
      rw [hstep, frRun_of_not_connected _ _ _ _ rfl]
      simp
      omega
    · have hstep : frStep freezeMax maxFails s (.readOk h) =
          { s with consecutive_fails := 0,
                   freeze_count := s.freeze_count + 1 } := by
        simp [frStep, frStepP, hl, hthr]
      have hih := ih (FRState.mk s.connected 0 s.last_hash
          (s.freeze_count + 1)) hc hl
          (by show s.freeze_count + 1 < freezeMax; omega)
      rw [hstep, hih]
      show freezeMax ≤ s.freeze_count + 1 + k ↔
        freezeMax ≤ s.freeze_count + (k + 1)
      omega

theorem hikRun_of_not_connected (maxFails : Nat) (s : HikState)
    (es : List HikEvent) (h : s.connected = false) :
    hikRun maxFails s es = s := by
  cases es with
  | nil => rfl
  | cons e es => simp [hikRun, h]

/-- Below the failure threshold, a run of failed reads only accumulates
the counter; nothing else in the state changes. -/
theorem hikRun_fails_below (maxFails : Nat) :
    ∀ (k : Nat) (s : HikState), s.connected = true →
      s.consecutive_fails + k < maxFails →
      (hikRun maxFails s (List.replicate k .readFail)).connected = true ∧
      (hikRun maxFails s (List.replicate k .readFail)).consecutive_fails =
        s.consecutive_fails + k ∧
      (hikRun maxFails s (List.replicate k .readFail)).latest = s.latest := by
  intro k
  induction k with
  | zero =>
    intro s hc hk
    exact ⟨hc, rfl, rfl⟩
  | succ k ih =>
    intro s hc hk
    rw [List.replicate_succ]
    simp only [hikRun, hc, if_true]
    have hstep : hikStep maxFails s .readFail =
        HikState.mk s.connected (s.consecutive_fails + 1) s.latest := by
      simp [hikStep]
      omega
    rw [hstep]
    obtain ⟨h1, h2, h3⟩ := ih (HikState.mk s.connected
        (s.consecutive_fails + 1) s.latest) hc
        (by show s.consecutive_fails + 1 + k < maxFails; omega)
    refine ⟨h1, ?_, h3⟩
    rw [h2]
    show s.consecutive_fails + 1 + k = s.consecutive_fails + (k + 1)
    omega

theorem selectCandidate_all_fail (probe : α → Bool) :
    ∀ (l : List α), (∀ x ∈ l, probe x = false) →
      selectCandidate probe l = (none, l.length) := by
  intro l
  induction l with
  | nil => intro _; rfl
  | cons u us ih =>
    intro hall
    have hu : probe u = false := hall u (by simp)
    have hrest := ih (fun x hx => hall x (by simp [hx]))
    simp [selectCandidate, hu, hrest]

theorem selectCandidate_first_wins (probe : α → Bool) :
    ∀ (pre : List α) (u : α) (post : List α),
      (∀ x ∈ pre, probe x = false) → probe u = true →
      selectCandidate probe (pre ++ u :: post) =
        (some u, pre.length + 1) := by
  intro pre
  induction pre with
  | nil =>
    intro u post _ hu
    simp [selectCandidate, hu]
  | cons p ps ih =>
    intro u post hall hu
    have hp : probe p = false := hall p (by simp)
    have hrest := ih u post (fun x hx => hall x (by simp [hx])) hu
    simp [selectCandidate, hp, hrest]

theorem bufSlot_append (l1 l2 : List BufEvent) :
    ∀ (init : Option (List Nat)),
      bufSlot init (l1 ++ l2) = bufSlot (bufSlot init l1) l2 := by
  induction l1 with
  | nil => intro init; rfl
  | cons e es ih =>
    intro init
    cases e with
    | publish b => simpa [bufSlot] using ih (some b)
    | readEvt c => simpa [bufSlot] using ih init

theorem bufSlot_no_publish :
    ∀ (l : List BufEvent) (init : Option (List Nat)),
      hasPublish l = false → bufSlot init l = init := by
  intro l
  induction l with
  | nil => intro init _; rfl
  | cons e es ih =>
    intro init hnp
    cases e with
    | publish b => simp [hasPublish] at hnp
    | readEvt c =>
      have hnp2 : hasPublish es = false := by
        simpa [hasPublish] using hnp
      simpa [bufSlot] using ih init hnp2

theorem bufSlot_some_mem :
    ∀ (l : List BufEvent) (init : Option (List Nat)) (b : List Nat),
      bufSlot init l = some b → BufEvent.publish b ∈ l ∨ init = some b := by
  intro l
  induction l with
  | nil => intro init b h; exact Or.inr h
  | cons e es ih =>
    intro init b h
    cases e with
    | publish b2 =>
      rcases ih (some b2) b h with hmem | heq
      · exact Or.inl (by simp [hmem])
      · have hb : b2 = b := by injection heq
        subst hb
        exact Or.inl (by simp)
    | readEvt c =>
      rcases ih init b h with hmem | heq
      · exact Or.inl (by simp [hmem])
      · exact Or.inr heq

theorem hikLoopIter_latest_isSome (maxFails : Nat)
    (i : Bool × HikEvent) (s : HikState)
    (h : s.latest.isSome = true) :
    (hikLoopIter maxFails s i).latest.isSome = true := by
  rcases i with ⟨won, e⟩
  by_cases hc : s.connected = true
  · cases e with
    | readFail =>
      by_cases hthr : maxFails ≤ s.consecutive_fails + 1 <;>
        simp [hikLoopIter, hc, hikStep, hthr, h]
    | readOk enc =>
      cases enc <;> simp [hikLoopIter, hc, hikStep, h]
  · have hc2 : s.connected = false := by
      cases hcv : s.connected
      · rfl
      · exact absurd hcv hc
    cases won <;> simp [hikLoopIter, hc2, hikSweepIter, h]

theorem hikLoopRun_latest_isSome (maxFails : Nat) :
    ∀ (tr : List (Bool × HikEvent)) (s : HikState),
      s.latest.isSome = true →
      (hikLoopRun maxFails s tr).latest.isSome = true := by
  intro tr
  induction tr with
  | nil => intro s h; exact h
  | cons i is ih =>
    intro s h
    exact ih _ (hikLoopIter_latest_isSome maxFails i s h)

theorem hikLoopIter_latest_nonempty (maxFails : Nat)
    (i : Bool × HikEvent) (s : HikState)
    (h : ∃ d, s.latest = some d ∧ d ≠ [])
    (hi : ∀ bs, i.2 = HikEvent.readOk (some bs) → bs ≠ []) :
    ∃ d, (hikLoopIter maxFails s i).latest = some d ∧ d ≠ [] := by
  rcases i with ⟨won, e⟩
  by_cases hc : s.connected = true
  · cases e with
    | readFail =>
      by_cases hthr : maxFails ≤ s.consecutive_fails + 1 <;>
        · simp only [hikLoopIter, hc, if_true, hikStep, hthr]
          simpa using h
    | readOk enc =>
      cases enc with
      | none => simp only [hikLoopIter, hc, if_true, hikStep]; simpa using h
      | some b =>
        refine ⟨b, ?_, hi b rfl⟩
        simp [hikLoopIter, hc, hikStep]
  · have hc2 : s.connected = false := by
      cases hcv : s.connected
      · rfl
      · exact absurd hcv hc
    cases won <;> · simp only [hikLoopIter, hc2]; simpa [hikSweepIter] using h

theorem hikLoopRun_latest_nonempty (maxFails : Nat) :
    ∀ (tr : List (Bool × HikEvent)) (s : HikState),
      (∃ d, s.latest = some d ∧ d ≠ []) →
      (∀ p ∈ tr, ∀ bs, p.2 = HikEvent.readOk (some bs) → bs ≠ []) →
      ∃ d, (hikLoopRun maxFails s tr).latest = some d ∧ d ≠ [] := by
  intro tr
  induction tr with
  | nil => intro s h _; exact h
  | cons i is ih =>
    intro s h htr
    refine ih _ (hikLoopIter_latest_nonempty maxFails i s h
      (htr i (by simp))) ?_
    intro p hp
    exact htr p (by simp [hp])

theorem hikRun_append (maxFails : Nat) :
    ∀ (l1 l2 : List HikEvent) (s : HikState),
      hikRun maxFails s (l1 ++ l2) =
        hikRun maxFails (hikRun maxFails s l1) l2 := by
  intro l1
  induction l1 with
  | nil => intro l2 s; rfl
  | cons e es ih =>
    intro l2 s
    by_cases hc : s.connected = true
    · simp [hikRun, hc, ih]
    · have hc2 : s.connected = false := by
        cases hcv : s.connected
        · rfl
        · exact absurd hcv hc
      simp [hikRun, hc2, hikRun_of_not_connected maxFails s l2 hc2]

/- ------------------------------------------------------------------ -/
/- Claim theorems.                                                     -/
/- ------------------------------------------------------------------ -/

/-- C1 (counterexample): the probe succeeds on `alternatingReads` with
`TEST_FRAMES = 8` even though the longest run of consecutive successful
reads has length 1 — `ok_count` is never reset by a failed read (the
`else` branch of the read loop only sleeps), so non-consecutive
successes do accumulate to a success result, contradicting the claim. -/
theorem probe_nonconsecutive_success_counterexample :
    try_open_stream true 8 alternatingReads = true ∧
      maxGoodRun alternatingReads = 1 ∧ ¬ 8 ≤ maxGoodRun alternatingReads := by
  decide

/-- C1 (amended): with the handle opened and `testFrames ≥ 1` (the
configured value is 8), the probe returns the still-open handle exactly
when the TOTAL number of successful non-empty reads that happen strictly
within `openTimeout` reaches `testFrames`; a failed read does not reset
the success counter — it only sleeps — so the successes need not be
consecutive. -/
theorem try_open_stream_succeeds_iff_total_good (openedOk : Bool)
    (testFrames : Nat) (reads : List ProbeRead) (h : 1 ≤ testFrames) :
    try_open_stream openedOk testFrames reads = true ↔
      openedOk = true ∧ testFrames ≤ countGood reads := by
  cases openedOk with
  | false => simp [try_open_stream]
  | true =>
    simp only [try_open_stream, if_true]
    rw [probeLoop_true_iff testFrames reads 0 (by omega)]
    simp

/-- Witness for `try_open_stream_succeeds_iff_total_good` at the
configured `TEST_FRAMES = 8` and the alternating read trace. -/
theorem try_open_stream_succeeds_iff_total_good_witness :
    try_open_stream true 8 alternatingReads = true :=
  (try_open_stream_succeeds_iff_total_good true 8 alternatingReads
    (by decide)).mpr ⟨rfl, by decide⟩

/-- C2 (counterexample): with `RTSP_FREEZE_MAX_FRAMES = 30`, a freshly
connected session (`last_hash = None`, `freeze_count = 0`) that reads 30
consecutive frames with identical fingerprint is still connected: the
first frame of the run only stores the fingerprint (`else` branch,
`freeze_count = 0`), so the run yields 29 increments, short of the
threshold — the claim says 30 such reads force a reconnect. -/
theorem freeze_thirty_identical_frames_counterexample :
    (frRun 30 30 ⟨true, 0, none, 0⟩
        (List.replicate 30 (FREvent.readOk 1))).connected = true := by
  decide

/-- C2 (amended): for any connected session with freeze threshold
`freezeMax ≥ 1`, a run of `N` successful reads with identical
fingerprint `h` forces a reconnect exactly when the freeze counter
reaches the threshold during the run: if the stored fingerprint differs
from `h` (a fresh connection in particular), that happens iff
`N ≥ freezeMax + 1` — the first read of the run only stores `h` and
resets the counter, and each of the remaining `N - 1` reads increments
it; if the stored fingerprint already equals `h` and the counter is
`c < freezeMax`, it happens iff `c + N ≥ freezeMax`. -/
theorem frRun_freeze_reconnect_boundary (freezeMax maxFails N : Nat)
    (s : FRState) (h : Nat) (hc : s.connected = true)
    (hT : 1 ≤ freezeMax) :
    (s.last_hash ≠ some h →
      ((frRun freezeMax maxFails s
          (List.replicate N (FREvent.readOk h))).connected = false ↔
        freezeMax + 1 ≤ N)) ∧
    (s.last_hash = some h → s.freeze_count < freezeMax →
      ((frRun freezeMax maxFails s
          (List.replicate N (FREvent.readOk h))).connected = false ↔
        freezeMax ≤ s.freeze_count + N)) := by
  constructor
  · intro hl
    cases N with
    | zero =>
      simp [frRun, hc]
    | succ k =>
      rw [List.replicate_succ]
      simp only [frRun, hc, if_true]
      have hstep : frStep freezeMax maxFails s (.readOk h) =
          FRState.mk s.connected 0 (some h) 0 := by
        simp [frStep, frStepP, hl]
      have hih := frRun_identical_aux freezeMax maxFails h k
        (FRState.mk s.connected 0 (some h) 0) hc rfl
        (by show (0 : Nat) < freezeMax; omega)
      rw [hstep, hih]
      show freezeMax ≤ 0 + k ↔ freezeMax + 1 ≤ k + 1
      omega
  · intro hl hf
    exact frRun_identical_aux freezeMax maxFails h N s hc hl hf

/-- Witness for `frRun_freeze_reconnect_boundary`: threshold 2, fresh
session, three identical frames — the reconnect fires. -/
theorem frRun_freeze_reconnect_boundary_witness :
    (frRun 2 30 ⟨true, 0, none, 0⟩
        (List.replicate 3 (FREvent.readOk 1))).connected = false :=
  ((frRun_freeze_reconnect_boundary 2 30 3 ⟨true, 0, none, 0⟩ 1 rfl
      (by decide)).1 (by decide)).mpr (by decide)

/-- C3 (counterexample): a successful read whose fingerprint equals the
stored one and leaves the freeze counter below the threshold increments
the counter AND hands the frame to the recognition stage (second
component `true`) — the claim says such a frame is not published. -/
theorem frozen_frame_still_processed_counterexample :
    frStepP 30 30 ⟨true, 0, some 1, 0⟩ (FREvent.readOk 1) =
      (⟨true, 0, some 1, 1⟩, true) := by
  decide

/-- C3 (amended): on every successful read the loop zeroes
`consecutive_fails` and computes the content fingerprint. If it equals
the stored fingerprint, the freeze counter is incremented; while the
incremented counter is below the threshold the frame is nevertheless
still processed (it falls through to the recognition stage); reaching
the threshold drops the frame and forces the reconnect. If it differs,
the freeze counter is zeroed, the stored fingerprint is updated and the
frame is processed. The hik_mjpeg_server capture loop publishes every
successfully encoded frame to the buffer without any fingerprint
check at all (last conjunct). -/
theorem read_success_freeze_publish_spec (freezeMax maxFails : Nat)
    (s : FRState) (h : Nat) (b : List Nat) (hs : HikState) :
    (s.last_hash = some h → s.freeze_count + 1 < freezeMax →
      frStepP freezeMax maxFails s (.readOk h) =
        (FRState.mk s.connected 0 s.last_hash (s.freeze_count + 1), true)) ∧
    (s.last_hash = some h → freezeMax ≤ s.freeze_count + 1 →
      frStepP freezeMax maxFails s (.readOk h) =
        (FRState.mk false 0 none 0, false)) ∧
    (s.last_hash ≠ some h →
      frStepP freezeMax maxFails s (.readOk h) =
        (FRState.mk s.connected 0 (some h) 0, true)) ∧
    hikStep maxFails hs (.readOk (some b)) =
      HikState.mk hs.connected 0 (some b) := by
  refine ⟨?_, ?_, ?_, rfl⟩
  · intro hl hthr
    have hn : ¬ freezeMax ≤ s.freeze_count + 1 := by omega
    simp [frStepP, hl, hn]
  · intro hl hthr
    simp [frStepP, hl, hthr]
  · intro hl
    simp [frStepP, hl]

/-- Witness for `read_success_freeze_publish_spec`: a read with a fresh
fingerprint resets the freeze counter, stores the fingerprint and
processes the frame. -/
theorem read_success_freeze_publish_spec_witness :
    frStepP 30 30 ⟨true, 0, some 1, 0⟩ (FREvent.readOk 2) =
      (⟨true, 0, some 2, 0⟩, true) :=
  (read_success_freeze_publish_spec 30 30 ⟨true, 0, some 1, 0⟩ 2 [7]
    ⟨true, 0, none⟩).2.2.1 (by decide)

/-- C4: from a connected session with zero failures and threshold 30, a
run of `k < 30` consecutive failed reads leaves the session connected
with the counter at `k` and the published frame untouched; a run of 30
disconnects the session (the handle is released, the next loop iteration
re-runs the candidate sweep from priority order) and zeroes the counter;
each below-threshold failure only increments the counter (and sleeps
`READ_FAIL_SLEEP_SEC`). -/
theorem hik_failure_threshold_spec (s : HikState) (k : Nat)
    (hc : s.connected = true) (h0 : s.consecutive_fails = 0) :
    (k < 30 →
      (hikRun 30 s (List.replicate k .readFail)).connected = true ∧
      (hikRun 30 s (List.replicate k .readFail)).consecutive_fails = k ∧
      (hikRun 30 s (List.replicate k .readFail)).latest = s.latest) ∧
    ((hikRun 30 s (List.replicate 30 .readFail)).connected = false ∧
     (hikRun 30 s (List.replicate 30 .readFail)).consecutive_fails = 0 ∧
     (hikRun 30 s (List.replicate 30 .readFail)).latest = s.latest) ∧
    (∀ s2 : HikState, s2.consecutive_fails + 1 < 30 →
      hikStep 30 s2 .readFail =
        HikState.mk s2.connected (s2.consecutive_fails + 1) s2.latest) := by
  refine ⟨?_, ?_, ?_⟩
  · intro hk
    obtain ⟨h1, h2, h3⟩ := hikRun_fails_below 30 k s hc (by omega)
    exact ⟨h1, by rw [h2, h0]; exact Nat.zero_add k, h3⟩
  · obtain ⟨h1, h2, h3⟩ := hikRun_fails_below 30 29 s hc (by omega)
    have hsplit : List.replicate 30 HikEvent.readFail =
        List.replicate 29 HikEvent.readFail ++ [HikEvent.readFail] := by
      rw [← List.replicate_succ']
    rw [hsplit, hikRun_append]
    generalize hT : hikRun 30 s (List.replicate 29 HikEvent.readFail) = t
      at h1 h2 h3
    have hcf : t.consecutive_fails = 29 := by rw [h2, h0]
    have hstep : hikStep 30 t HikEvent.readFail =
        HikState.mk false 0 t.latest := by
      simp [hikStep, hcf]
    simp only [hikRun, h1, if_true, hstep]
    exact ⟨trivial, trivial, h3⟩
  · intro s2 hk
    have hn : ¬ (30 : Nat) ≤ s2.consecutive_fails + 1 := by omega
    simp [hikStep, hn]

/-- Witness for `hik_failure_threshold_spec`: 29 failures keep the
session connected at counter 29; 30 failures disconnect it. -/
theorem hik_failure_threshold_spec_witness :
    (hikRun 30 ⟨true, 0, some [5]⟩
        (List.replicate 29 HikEvent.readFail)).connected = true ∧
    (hikRun 30 ⟨true, 0, some [5]⟩
        (List.replicate 29 HikEvent.readFail)).consecutive_fails = 29 ∧
    (hikRun 30 ⟨true, 0, some [5]⟩
        (List.replicate 30 HikEvent.readFail)).connected = false ∧
    (hikRun 30 ⟨true, 0, some [5]⟩
        (List.replicate 30 HikEvent.readFail)).consecutive_fails = 0 :=
  have h := hik_failure_threshold_spec ⟨true, 0, some [5]⟩ 29 rfl rfl
  ⟨(h.1 (by decide)).1, (h.1 (by decide)).2.1, h.2.1.1, h.2.1.2.1⟩

/-- C5: the candidate list is always main channel before sub channel;
the sweep probes candidates in list order, the first passer wins and
later candidates are not probed that round (the probe count is the
winner position plus one); when every candidate fails, the sweep reports
no winner after probing the whole list and the session stays
disconnected for the next round (after `RETRY_ALL_URL_SLEEP_SEC`). -/
theorem candidate_sweep_spec (user pwd ip port mainCh subCh : String)
    (probe : α → Bool) (pre : List α) (u : α) (post : List α)
    (l : List α) (s : HikState)
    (hpre : ∀ x ∈ pre, probe x = false) (hu : probe u = true)
    (hall : ∀ x ∈ l, probe x = false) (hs : s.connected = false) :
    rtsp_urls user pwd ip port mainCh subCh =
      ["rtsp://" ++ user ++ ":" ++ pwd ++ "@" ++ ip ++ ":" ++ port ++
        "/" ++ mainCh ++ "?transportmode=unicast",
       "rtsp://" ++ user ++ ":" ++ pwd ++ "@" ++ ip ++ ":" ++ port ++
        "/" ++ subCh ++ "?transportmode=unicast"] ∧
    selectCandidate probe (pre ++ u :: post) =
      (some u, pre.length + 1) ∧
    selectCandidate probe l = (none, l.length) ∧
    (hikSweepIter (selectCandidate probe l).1.isSome s).connected
      = false := by
  refine ⟨rfl, selectCandidate_first_wins probe pre u post hpre hu,
    selectCandidate_all_fail probe l hall, ?_⟩
  rw [selectCandidate_all_fail probe l hall]
  simpa [hikSweepIter] using hs

/-- Witness for `candidate_sweep_spec`: third of four candidates is the
first to pass; a two-candidate list where both fail yields no winner and
the session stays disconnected. -/
theorem candidate_sweep_spec_witness :
    selectCandidate (fun n : Nat => decide (n = 2)) ([0, 1] ++ 2 :: [3]) =
      (some 2, 3) ∧
    selectCandidate (fun n : Nat => decide (n = 2)) [0, 1] = (none, 2) ∧
    (hikSweepIter
        (selectCandidate (fun n : Nat => decide (n = 2)) [0, 1]).1.isSome
        ⟨false, 5, none⟩).connected = false :=
  have h := candidate_sweep_spec "u" "p" "ip" "554" "m" "sb"
    (fun n : Nat => decide (n = 2)) [0, 1] 2 [3] [0, 1] ⟨false, 5, none⟩
    (by decide) (by decide) (by decide) rfl
  ⟨h.2.1, h.2.2.1, h.2.2.2⟩

/-- C6 (counterexample): in `face_runtime.main` the threshold-breach
transition calls `cap.release()` without a guard; a raising release
aborts the loop through the outer exception handler instead of
transitioning the session to DISCONNECTED — so an error during close IS
fatal there and DOES prevent the state transition. -/
theorem close_error_fatal_counterexample :
    frFailureDisconnect CloseResult.err ⟨true, 30, none, 0⟩ = none := rfl

/-- C6 (amended): in `hik_mjpeg_server.capture_loop` every transition
back to DISCONNECTED performs exactly one `release()` call inside
try/except, so a close error is logged and never prevents the
transition (first conjunct, for both close outcomes); in
`face_runtime.main` the transition happens only when `release()`
returns normally — a raising release terminates the capture loop via
the top-level handler instead (last conjunct). -/
theorem disconnect_close_spec (r : CloseResult) (s : HikState)
    (fs : FRState) :
    hikForceDisconnect r s = (HikState.mk false 0 s.latest, true) ∧
    frFailureDisconnect CloseResult.ok fs =
      some (FRState.mk false 0 fs.last_hash fs.freeze_count) ∧
    frFailureDisconnect CloseResult.err fs = none := by
  refine ⟨?_, rfl, rfl⟩
  cases r <;> rfl

/-- C7: while no frame has ever been published, `/health` reports
`has_frame = false`, `/snapshot` responds 503 text/plain "no frame"
instead of image bytes, and an iteration of the `/video_feed` generator
emits no part (it polls and waits); once a non-empty frame exists,
`/snapshot` returns its bytes as 200 image/jpeg and the generator
emits a complete part. -/
theorem publisher_no_frame_spec (d : List Nat) (hd : d ≠ []) :
    health none = false ∧
    snapshot none = ⟨503, "text/plain", RespBody.text "no frame"⟩ ∧
    videoFeedIter false none = FeedOut.waiting ∧
    health (some d) = true ∧
    snapshot (some d) = ⟨200, "image/jpeg", RespBody.bytes d⟩ ∧
    videoFeedIter false (some d) = FeedOut.part d.length d := by
  refine ⟨rfl, rfl, rfl, rfl, ?_, ?_⟩
  · simp [snapshot, hd]
  · simp [videoFeedIter, hd]

/-- Witness for `publisher_no_frame_spec` at the one-byte frame. -/
theorem publisher_no_frame_spec_witness :
    snapshot (some [1]) = ⟨200, "image/jpeg", RespBody.bytes [1]⟩ ∧
    videoFeedIter false (some [1]) = FeedOut.part 1 [1] :=
  have h := publisher_no_frame_spec [1] (by decide)
  ⟨h.2.2.2.2.1, h.2.2.2.2.2⟩

/-- C8: when the JPEG encode of a successfully captured frame fails, the
frame is dropped — `latest_jpeg` keeps its previous value — the session
stays in the same connected state, and the counters are exactly those of
a successful encode (the consecutive-failure counter was zeroed by the
successful read itself, not changed by the encode outcome). -/
theorem encode_failure_drop_spec (maxFails : Nat) (s : HikState)
    (b : List Nat) :
    hikStep maxFails s (.readOk none) =
      HikState.mk s.connected 0 s.latest ∧
    (hikStep maxFails s (.readOk none)).latest = s.latest ∧
    (hikStep maxFails s (.readOk none)).connected = s.connected ∧
    (hikStep maxFails s (.readOk none)).consecutive_fails =
      (hikStep maxFails s (.readOk (some b))).consecutive_fails :=
  ⟨rfl, rfl, rfl, rfl⟩

/-- C9: in any interleaving of atomic slot accesses (each access holds
`frame_lock` for the whole read or whole write), a snapshot observation
is either empty or the complete byte payload of one previously published
frame — never a mixture; and after a single publish of `b`, any two
consumers whose reads happen before the next publish both observe
exactly `some b`. -/
theorem frame_buffer_atomicity_spec (pre s1 s2 : List BufEvent)
    (b bo : List Nat) (hobs : bufSlot none pre = some bo)
    (h1 : hasPublish s1 = false) (h2 : hasPublish s2 = false) :
    BufEvent.publish bo ∈ pre ∧
    bufSlot none (pre ++ BufEvent.publish b :: s1) = some b ∧
    bufSlot none (pre ++ BufEvent.publish b :: s2) = some b := by
  refine ⟨?_, ?_, ?_⟩
  · rcases bufSlot_some_mem pre none bo hobs with hmem | heq
    · exact hmem
    · exact absurd heq (by simp)
  · rw [bufSlot_append]
    show bufSlot (some b) s1 = some b
    exact bufSlot_no_publish s1 (some b) h1
  · rw [bufSlot_append]
    show bufSlot (some b) s2 = some b
    exact bufSlot_no_publish s2 (some b) h2

/-- Witness for `frame_buffer_atomicity_spec`: one earlier publication,
then a publish of `[9]` observed identically by consumers 1 and 2. -/
theorem frame_buffer_atomicity_spec_witness :
    BufEvent.publish [1] ∈ [BufEvent.publish [1], BufEvent.readEvt 0] ∧
    bufSlot none ([BufEvent.publish [1], BufEvent.readEvt 0] ++
      BufEvent.publish [9] :: [BufEvent.readEvt 1]) = some [9] ∧
    bufSlot none ([BufEvent.publish [1], BufEvent.readEvt 0] ++
      BufEvent.publish [9] :: [BufEvent.readEvt 2]) = some [9] :=
  frame_buffer_atomicity_spec [BufEvent.publish [1], BufEvent.readEvt 0]
    [BufEvent.readEvt 1] [BufEvent.readEvt 2] [9] [1]
    (by decide) (by decide) (by decide)

/-- C10: once `latest_jpeg` holds a frame, no iteration of the full
capture loop — connected reads, failures, threshold disconnects, sweeps
— ever empties it again, so `/health` can only go from
`has_frame = false` to `true`; and, provided every published payload is
non-empty (successful JPEG encodes are), `/snapshot` keeps answering
200 image/jpeg forever after its first success. -/
theorem frame_persistence_spec (maxFails : Nat) (s : HikState)
    (tr : List (Bool × HikEvent)) (b0 : List Nat)
    (h0 : s.latest = some b0) :
    (hikLoopRun maxFails s tr).latest.isSome = true ∧
    health (hikLoopRun maxFails s tr).latest = true ∧
    (b0 ≠ [] →
      (∀ p ∈ tr, ∀ bs, p.2 = HikEvent.readOk (some bs) → bs ≠ []) →
      (snapshot (hikLoopRun maxFails s tr).latest).status = 200 ∧
      (snapshot (hikLoopRun maxFails s tr).latest).mime = "image/jpeg") := by
  have hsome := hikLoopRun_latest_isSome maxFails tr s (by simp [h0])
  refine ⟨hsome, hsome, ?_⟩
  intro hne htr
  obtain ⟨d, hd, hdne⟩ :=
    hikLoopRun_latest_nonempty maxFails tr s ⟨b0, h0, hne⟩ htr
  rw [hd]
  constructor <;> simp [snapshot, hdne]

/-- Witness for `frame_persistence_spec`: a trace with a failed read, an
encode failure and a fresh publication keeps the slot full and the
snapshot successful. -/
theorem frame_persistence_spec_witness :
    (hikLoopRun 30 ⟨true, 0, some [1]⟩
        [(false, HikEvent.readFail), (true, HikEvent.readOk none),
         (false, HikEvent.readOk (some [2, 3]))]).latest.isSome = true ∧
    (snapshot (hikLoopRun 30 ⟨true, 0, some [1]⟩
        [(false, HikEvent.readFail), (true, HikEvent.readOk none),
         (false, HikEvent.readOk (some [2, 3]))]).latest).status = 200 :=
  have h := frame_persistence_spec 30 ⟨true, 0, some [1]⟩
    [(false, HikEvent.readFail), (true, HikEvent.readOk none),
     (false, HikEvent.readOk (some [2, 3]))] [1] rfl
  ⟨h.1, (h.2.2 (by decide)
    (by
      intro p hp bs hbs
      fin_cases hp
      · simp at hbs
      · simp at hbs
      · simp at hbs
        subst hbs
        decide)).1⟩

end PiFace
